import Mathlib

/-!
Shallow embedding of the MemoryMix track-to-photo matching engine
(`backend/services/matching_service.py`), of the Last.fm ingestion
deduplication (`backend/services/lastfm_service.py`), and of the pieces of
the suggestion route needed by the claims.

Conventions of the embedding:
* instants (`creation_time`, `played_at`) are integers counting seconds;
* Python float division inside `calculate_confidence_score` and
  `calculate_time_difference_minutes` is modelled by exact rational
  arithmetic, so `int(x)` on the non-negative quantities involved is
  integer (floor) division;
* code that can raise an uncaught exception (the `ZeroDivisionError` in
  `calculate_confidence_score` when `max_window_minutes = 0`) is modelled
  with `Option`, `none` standing for the raised exception.
-/

/-- A row of the `listening_history` table (`models.py`), restricted to the
fields the matching and ingestion code reads or writes. -/
structure ListeningHistory where
  id : Int
  user_id : Int
  track_id : String
  track_name : String
  artist_name : String
  album_name : String
  album_image_url : Option String
  played_at : Int
  duration_ms : Int
  track_url : String
  track_mbid : String
deriving DecidableEq

/-- A row of the `photos` table, restricted to what the matching code reads. -/
structure Photo where
  id : Int
  creation_time : Int
deriving DecidableEq

/-- One entry of the list returned by `suggest_tracks_for_photo`. -/
structure Suggestion where
  track_id : Int
  track_name : String
  artist_name : String
  album_name : String
  album_image_url : Option String
  played_at : Int
  confidence_score : Int
  time_difference_minutes : Nat
deriving DecidableEq

/-- `MatchingService.calculate_time_difference_minutes`: absolute time
difference in whole minutes, `abs(int((photo_time - track_time).total_seconds() / 60))`. -/
def calculate_time_difference_minutes (photo_time track_time : Int) : Nat :=
  (photo_time - track_time).natAbs / 60

/-- `MatchingService.calculate_confidence_score`.  Returns `none` when the
Python code raises `ZeroDivisionError` (division by `max_window_minutes = 0`;
reachable only with `time_diff_minutes = 0`, since otherwise the first guard
fires).  On the non-exceptional path the Python `int()` truncation of the
non-negative float equals integer floor division. -/
def calculate_confidence_score (time_diff_minutes : Nat) (max_window_minutes : Int) :
    Option Int :=
  if (time_diff_minutes : Int) > max_window_minutes then some 0
  else if max_window_minutes = 0 then none
  else some (max 0 (min 100
    ((100 * (max_window_minutes - (time_diff_minutes : Int))) / max_window_minutes)))

/-- `LastfmService.get_tracks_by_time_window`: the user's plays whose
`played_at` lies in `[start_time, end_time]`, ordered by `played_at`
(modelled as a stable sort of the table rows). -/
def get_tracks_by_time_window (db : List ListeningHistory) (user_id : Int)
    (start_time end_time : Int) : List ListeningHistory :=
  (db.filter (fun t =>
    decide (t.user_id = user_id ∧ start_time ≤ t.played_at ∧ t.played_at ≤ end_time))).mergeSort
    (fun a b => decide (a.played_at ≤ b.played_at))

/-- The suggestion-building loop of `suggest_tracks_for_photo` (lines 62-84):
score every candidate track and keep those with `confidence_score > 0`,
in candidate order.  `none` when scoring raises. -/
def buildSuggestions (photo_time max_window_minutes : Int) :
    List ListeningHistory → Option (List Suggestion)
  | [] => some []
  | t :: ts =>
    match calculate_confidence_score
        (calculate_time_difference_minutes photo_time t.played_at) max_window_minutes with
    | none => none
    | some c =>
      match buildSuggestions photo_time max_window_minutes ts with
      | none => none
      | some rest =>
        some (if 0 < c then
          ⟨t.id, t.track_name, t.artist_name, t.album_name, t.album_image_url,
            t.played_at, c, calculate_time_difference_minutes photo_time t.played_at⟩ :: rest
        else rest)

/-- Python's `lst[:m]` for an `int` bound `m` (negative bounds count from the
end, clamped at zero). -/
def pyTakeSlice (l : List α) (m : Int) : List α :=
  if 0 ≤ m then l.take m.toNat else l.take ((l.length : Int) + m).toNat

/-- The comparator realising `suggestions.sort(key=..confidence_score, reverse=True)`:
Python's sort is stable, so the model is a stable merge sort with this
descending-score relation. -/
def suggestLE (a b : Suggestion) : Bool :=
  decide (b.confidence_score ≤ a.confidence_score)

/-- `MatchingService.suggest_tracks_for_photo`. -/
def suggest_tracks_for_photo (db : List ListeningHistory) (photo : Photo)
    (user_id : Int) (time_window_hours : Int) (max_suggestions : Int) :
    Option (List Suggestion) :=
  match buildSuggestions photo.creation_time (time_window_hours * 60)
      (get_tracks_by_time_window db user_id
        (photo.creation_time - time_window_hours * 3600)
        (photo.creation_time + time_window_hours * 3600)) with
  | none => none
  | some suggestions =>
      some (pyTakeSlice (suggestions.mergeSort suggestLE) max_suggestions)

/-- Python `dict` assignment `m[k] = v`: overwrite in place when the key is
present, append otherwise. -/
def dictAssign (m : List (Int × β)) (k : Int) (v : β) : List (Int × β) :=
  if m.any (fun e => decide (e.1 = k)) then
    m.map (fun e => if e.1 = k then (e.1, v) else e)
  else m ++ [(k, v)]

/-- The loop of `auto_suggest_mappings_for_memory`, threading the dict. -/
def autoSuggestLoop (db : List ListeningHistory) (user_id time_window_hours : Int) :
    List Photo → List (Int × List Suggestion) → Option (List (Int × List Suggestion))
  | [], acc => some acc
  | ph :: rest, acc =>
    match suggest_tracks_for_photo db ph user_id time_window_hours 5 with
    | none => none
    | some sgs => autoSuggestLoop db user_id time_window_hours rest (dictAssign acc ph.id sgs)

/-- `MatchingService.auto_suggest_mappings_for_memory`: one entry per photo,
keyed by `photo.id`; `max_suggestions` is not passed through, so the
default of 5 is always used. -/
def auto_suggest_mappings_for_memory (db : List ListeningHistory)
    (photos : List Photo) (user_id time_window_hours : Int) :
    Option (List (Int × List Suggestion)) :=
  autoSuggestLoop db user_id time_window_hours photos []

/-- A raw Last.fm `recenttracks` item after field extraction, as read by
`sync_listening_history`. -/
structure LastfmEvent where
  nowplaying : Bool
  uts : Option Int
  track_name : String
  artist_name : String
  album_name : String
  album_image_url : Option String
  mbid : String
  duration : Option Int
  url : String
deriving DecidableEq

/-- The synthetic dedup key built by `sync_listening_history`:
`f"{track_name}|{artist_name}|{int(uts)}"`. -/
def trackKey (e : LastfmEvent) (uts : Int) : String :=
  e.track_name ++ "|" ++ e.artist_name ++ "|" ++ toString uts

/-- One iteration of the ingestion loop of `sync_listening_history` over a
single event: skip now-playing and dateless items, skip duplicates (same
user, synthetic key and `played_at`), otherwise insert a new row; the second
component is the increment to `tracks_added`. -/
def stepEvent (user_id : Int) (db : List ListeningHistory) (e : LastfmEvent) :
    List ListeningHistory × Nat :=
  if e.nowplaying then (db, 0)
  else
    match e.uts with
    | none => (db, 0)
    | some uts =>
      if db.any (fun h =>
          decide (h.user_id = user_id ∧ h.track_id = trackKey e uts ∧ h.played_at = uts)) then
        (db, 0)
      else
        (db ++ [⟨0, user_id, trackKey e uts, e.track_name, e.artist_name, e.album_name,
          e.album_image_url, uts,
          (match e.duration with | some d => d * 1000 | none => 0), e.url, e.mbid⟩], 1)

/-- `LastfmService.sync_listening_history` over an already-fetched list of
events: fold `stepEvent`, returning the final table and `tracks_added`. -/
def sync_listening_history (user_id : Int) (db : List ListeningHistory) :
    List LastfmEvent → List ListeningHistory × Nat
  | [] => (db, 0)
  | e :: es =>
    let r := stepEvent user_id db e
    let r2 := sync_listening_history user_id r.1 es
    (r2.1, r.2 + r2.2)

/-- Scoring formula as the spec's sentence words it (`round`, not the code's
truncation), for refinement comparison only. -/
def confidence_score_round_spec (time_diff_minutes : Nat) (max_window_minutes : Int) : Int :=
  if (time_diff_minutes : Int) > max_window_minutes then 0
  else max 0 (min 100
    (round ((100 : ℚ) * (1 - (time_diff_minutes : ℚ) / (max_window_minutes : ℚ)))))

/-- Closed form of the non-exceptional branch of `calculate_confidence_score`,
used only to organise the proofs. -/
def scoreVal (time_diff_minutes : Nat) (max_window_minutes : Int) : Int :=
  if (time_diff_minutes : Int) > max_window_minutes then 0
  else max 0 (min 100
    ((100 * (max_window_minutes - (time_diff_minutes : Int))) / max_window_minutes))

theorem calculate_confidence_score_eq_scoreVal (d : Nat) (W : Int) (hW : W ≠ 0) :
    calculate_confidence_score d W = some (scoreVal d W) := by
  unfold calculate_confidence_score scoreVal
  by_cases h : (d : Int) > W <;> simp [h, hW]

theorem scoreVal_nonneg (d : Nat) (W : Int) : 0 ≤ scoreVal d W := by
  unfold scoreVal
  split
  · exact le_refl 0
  · exact le_max_left 0 _

theorem scoreVal_mono (W : Int) (hW : 0 < W) {d1 d2 : Nat} (h : d1 ≤ d2) :
    scoreVal d2 W ≤ scoreVal d1 W := by
  by_cases h2 : (d2 : Int) > W
  · rw [scoreVal, if_pos h2]
    exact scoreVal_nonneg d1 W
  · have h1 : ¬((d1 : Int) > W) := by omega
    rw [scoreVal, scoreVal, if_neg h2, if_neg h1]
    have hdd : 100 * (W - (d2 : Int)) ≤ 100 * (W - (d1 : Int)) := by omega
    exact max_le_max (le_refl 0) (min_le_min (le_refl 100) (Int.ediv_le_ediv hW hdd))

theorem confidence_score_outside (d : Nat) (W : Int) (h : W < (d : Int)) :
    calculate_confidence_score d W = some 0 := by
  rw [calculate_confidence_score, if_pos h]

/-- C1 counterexample: the code truncates, it does not round.  At
`diffMinutes = 170`, `windowHours = 3` the code computes
`int(100 * (1 - 170/180)) = 5`, while the claim's formula
`round(100 * (1 - 170/180))` gives `6`. -/
theorem C1_counterexample :
    calculate_confidence_score 170 (3 * 60) = some 5 ∧
    confidence_score_round_spec 170 (3 * 60) = 6 := by
  constructor
  · decide
  · rw [confidence_score_round_spec, if_neg (by norm_num), round_eq]
    norm_num

/-- C1 (amended): for `0 ≤ diffMinutes ≤ windowHours*60` the score is
`floor(100 * (1 - diffMinutes / (windowHours*60)))` clamped to `[0,100]`
(Python `int()` truncation of a non-negative value, not `round`); the plays
at `T-10min` and `T-170min` with `windowHours = 3` receive scores 94 and 5. -/
theorem C1_amended (w : Int) (d : Nat) (hw : 0 < w) (hd : (d : Int) ≤ w * 60) :
    calculate_confidence_score d (w * 60)
      = some (max 0 (min 100 ⌊(100 : ℚ) * (1 - (d : ℚ) / ((w : ℚ) * 60))⌋)) ∧
    calculate_confidence_score 10 (3 * 60) = some 94 ∧
    calculate_confidence_score 170 (3 * 60) = some 5 := by
  have hW : (0 : Int) < w * 60 := by omega
  have hW0 : w * 60 ≠ 0 := ne_of_gt hW
  refine ⟨?_, by decide, by decide⟩
  rw [calculate_confidence_score_eq_scoreVal _ _ hW0]
  have hfloor : ⌊(100 : ℚ) * (1 - (d : ℚ) / ((w : ℚ) * 60))⌋
      = (100 * (w * 60 - (d : Int))) / (w * 60) := by
    have htn : (((w * 60).toNat : ℕ) : ℚ) = (w : ℚ) * 60 := by
      have h1 : (((w * 60).toNat : ℤ) : ℚ) = ((w * 60 : ℤ) : ℚ) := by
        rw [Int.toNat_of_nonneg hW.le]
      push_cast at h1 ⊢
      linarith
    have h60 : ((w : ℚ) * 60) ≠ 0 := by
      have : (0 : ℚ) < (w : ℚ) := by exact_mod_cast hw
      positivity
    have key : (100 : ℚ) * (1 - (d : ℚ) / ((w : ℚ) * 60))
        = ((100 * (w * 60 - (d : Int)) : Int) : ℚ) / (((w * 60).toNat : ℕ) : ℚ) := by
      rw [htn]
      field_simp
    rw [key, Rat.floor_intCast_div_natCast, Int.toNat_of_nonneg hW.le]
  rw [hfloor, scoreVal, if_neg (by omega)]

/-- Witness for `C1_amended` at `w = 3`, `d = 170`. -/
theorem C1_witness :
    calculate_confidence_score 170 (3 * 60)
      = some (max 0 (min 100 ⌊(100 : ℚ) * (1 - ((170 : Nat) : ℚ) / (((3 : Int) : ℚ) * 60))⌋)) ∧
    calculate_confidence_score 10 (3 * 60) = some 94 ∧
    calculate_confidence_score 170 (3 * 60) = some 5 :=
  C1_amended 3 170 (by norm_num) (by norm_num)

/-- C4: for every `windowHours > 0` the score is 100 at `diffMinutes = 0`,
0 at `diffMinutes = windowHours*60`, and non-increasing in `diffMinutes`. -/
theorem C4_endpoints_and_monotone (w : Int) (hw : 0 < w) :
    calculate_confidence_score 0 (w * 60) = some 100 ∧
    calculate_confidence_score (w * 60).toNat (w * 60) = some 0 ∧
    ∀ (d1 d2 : Nat) (s1 s2 : Int), d1 ≤ d2 →
      calculate_confidence_score d1 (w * 60) = some s1 →
      calculate_confidence_score d2 (w * 60) = some s2 → s2 ≤ s1 := by
  have hW : (0 : Int) < w * 60 := by omega
  have hW0 : w * 60 ≠ 0 := ne_of_gt hW
  refine ⟨?_, ?_, ?_⟩
  · rw [calculate_confidence_score_eq_scoreVal _ _ hW0, scoreVal, if_neg (by omega)]
    have : (100 * (w * 60 - ((0 : Nat) : Int))) / (w * 60) = 100 := by
      simp only [Nat.cast_zero, sub_zero]
      exact Int.mul_ediv_cancel 100 hW0
    rw [this]
    norm_num
  · rw [calculate_confidence_score_eq_scoreVal _ _ hW0, scoreVal, if_neg (by omega)]
    have hcast : (((w * 60).toNat : Nat) : Int) = w * 60 := Int.toNat_of_nonneg hW.le
    rw [hcast, sub_self, mul_zero, Int.zero_ediv]
    norm_num
  · intro d1 d2 s1 s2 hd h1 h2
    rw [calculate_confidence_score_eq_scoreVal _ _ hW0, Option.some.injEq] at h1 h2
    rw [← h1, ← h2]
    exact scoreVal_mono _ hW hd

/-- Witness for `C4_endpoints_and_monotone` at `w = 1` (and `d1 = 3 ≤ d2 = 5`). -/
theorem C4_witness :
    calculate_confidence_score 0 (1 * 60) = some 100 ∧
    calculate_confidence_score ((1 : Int) * 60).toNat (1 * 60) = some 0 ∧
    (91 : Int) ≤ 95 := by
  have h := C4_endpoints_and_monotone 1 (by norm_num)
  exact ⟨h.1, h.2.1, h.2.2 3 5 95 91 (by norm_num) (by decide) (by decide)⟩

/-- C5 counterexample: strict monotonicity fails inside the window.  With
`windowHours = 3`, `diffMinutes = 2` and `diffMinutes = 3` both score 98. -/
theorem C5_counterexample :
    (2 : Nat) < 3 ∧ ((3 : Nat) : Int) ≤ 3 * 60 ∧
    calculate_confidence_score 2 (3 * 60) = some 98 ∧
    calculate_confidence_score 3 (3 * 60) = some 98 := by
  refine ⟨by norm_num, by norm_num, by decide, by decide⟩

/-- C5 (amended): within the window the score is a deterministic,
monotonically non-increasing (not strictly decreasing) function of
`diffMinutes`, and it is exactly 0 outside the window. -/
theorem C5_amended (w : Int) (hw : 0 < w) :
    (∀ (d1 d2 : Nat) (s1 s2 : Int), d1 ≤ d2 →
      calculate_confidence_score d1 (w * 60) = some s1 →
      calculate_confidence_score d2 (w * 60) = some s2 → s2 ≤ s1) ∧
    (∀ d : Nat, w * 60 < (d : Int) → calculate_confidence_score d (w * 60) = some 0) := by
  have hW : (0 : Int) < w * 60 := by omega
  have hW0 : w * 60 ≠ 0 := ne_of_gt hW
  constructor
  · intro d1 d2 s1 s2 hd h1 h2
    rw [calculate_confidence_score_eq_scoreVal _ _ hW0, Option.some.injEq] at h1 h2
    rw [← h1, ← h2]
    exact scoreVal_mono _ hW hd
  · intro d hd
    exact confidence_score_outside d _ hd

/-- Witness for `C5_amended` at `w = 3` (`d1 = 2 ≤ d2 = 179`, `d = 200`). -/
theorem C5_witness :
    (0 : Int) ≤ 98 ∧ calculate_confidence_score 200 (3 * 60) = some 0 :=
  ⟨(C5_amended 3 (by norm_num)).1 2 179 98 0 (by norm_num) (by decide) (by decide),
   (C5_amended 3 (by norm_num)).2 200 (by norm_num)⟩

theorem buildSuggestions_mem (pt W : Int) (ts : List ListeningHistory) :
    ∀ pre, buildSuggestions pt W ts = some pre →
      ∀ s ∈ pre, ∃ t ∈ ts, s.played_at = t.played_at ∧
        s.time_difference_minutes = calculate_time_difference_minutes pt t.played_at ∧
        calculate_confidence_score s.time_difference_minutes W = some s.confidence_score ∧
        0 < s.confidence_score := by
  induction ts with
  | nil =>
    intro pre h s hs
    simp only [buildSuggestions, Option.some.injEq] at h
    subst h
    simp at hs
  | cons t ts ih =>
    intro pre h s hs
    simp only [buildSuggestions] at h
    cases hc : calculate_confidence_score
        (calculate_time_difference_minutes pt t.played_at) W with
    | none => rw [hc] at h; simp at h
    | some c =>
      rw [hc] at h
      cases hr : buildSuggestions pt W ts with
      | none => rw [hr] at h; simp at h
      | some rest =>
        rw [hr] at h
        simp only [Option.some.injEq] at h
        subst h
        by_cases hcpos : 0 < c
        · rw [if_pos hcpos] at hs
          rcases List.mem_cons.mp hs with hs | hs
          · subst hs
            exact ⟨t, List.mem_cons_self t ts, rfl, rfl, hc, hcpos⟩
          · obtain ⟨t2, ht2, hrest⟩ := ih rest hr s hs
            exact ⟨t2, List.mem_cons_of_mem t ht2, hrest⟩
        · rw [if_neg hcpos] at hs
          obtain ⟨t2, ht2, hrest⟩ := ih rest hr s hs
          exact ⟨t2, List.mem_cons_of_mem t ht2, hrest⟩

theorem pyTakeSlice_sublist (l : List α) (m : Int) : List.Sublist (pyTakeSlice l m) l := by
  rw [pyTakeSlice]
  split
  · exact List.take_sublist _ _
  · exact List.take_sublist _ _

theorem suggest_eq (db : List ListeningHistory) (photo : Photo) (u w m : Int)
    {pre : List Suggestion}
    (hpre : buildSuggestions photo.creation_time (w * 60)
      (get_tracks_by_time_window db u (photo.creation_time - w * 3600)
        (photo.creation_time + w * 3600)) = some pre) :
    suggest_tracks_for_photo db photo u w m
      = some (pyTakeSlice (pre.mergeSort suggestLE) m) := by
  unfold suggest_tracks_for_photo
  rw [hpre]

theorem suggest_some_inv (db : List ListeningHistory) (photo : Photo) (u w m : Int)
    (out : List Suggestion) (h : suggest_tracks_for_photo db photo u w m = some out) :
    ∃ pre, buildSuggestions photo.creation_time (w * 60)
      (get_tracks_by_time_window db u (photo.creation_time - w * 3600)
        (photo.creation_time + w * 3600)) = some pre ∧
      out = pyTakeSlice (pre.mergeSort suggestLE) m := by
  unfold suggest_tracks_for_photo at h
  cases hb : buildSuggestions photo.creation_time (w * 60)
      (get_tracks_by_time_window db u (photo.creation_time - w * 3600)
        (photo.creation_time + w * 3600)) with
  | none => rw [hb] at h; simp at h
  | some pre =>
    rw [hb] at h
    simp only [Option.some.injEq] at h
    exact ⟨pre, rfl, h.symm⟩

theorem suggest_mem_build (db : List ListeningHistory) (photo : Photo) (u w m : Int)
    (out : List Suggestion) (h : suggest_tracks_for_photo db photo u w m = some out) :
    ∀ s ∈ out, ∃ t ∈ get_tracks_by_time_window db u
        (photo.creation_time - w * 3600) (photo.creation_time + w * 3600),
      s.played_at = t.played_at ∧
      s.time_difference_minutes = calculate_time_difference_minutes photo.creation_time t.played_at ∧
      calculate_confidence_score s.time_difference_minutes (w * 60) = some s.confidence_score ∧
      0 < s.confidence_score := by
  obtain ⟨pre, hpre, hout⟩ := suggest_some_inv db photo u w m out h
  intro s hs
  subst hout
  have hs2 : s ∈ pre.mergeSort suggestLE := (pyTakeSlice_sublist _ _).subset hs
  exact buildSuggestions_mem _ _ _ pre hpre s (List.mem_mergeSort.mp hs2)

theorem mem_get_tracks (db : List ListeningHistory) (u st en : Int)
    (t : ListeningHistory) (h : t ∈ get_tracks_by_time_window db u st en) :
    t ∈ db ∧ t.user_id = u ∧ st ≤ t.played_at ∧ t.played_at ≤ en := by
  unfold get_tracks_by_time_window at h
  rw [List.mem_mergeSort] at h
  have h1 := List.mem_of_mem_filter h
  have h2 := List.of_mem_filter h
  simp only [decide_eq_true_eq] at h2
  exact ⟨h1, h2⟩

theorem get_tracks_eq_nil (db : List ListeningHistory) (u st en : Int)
    (h : ∀ t ∈ db, ¬(t.user_id = u ∧ st ≤ t.played_at ∧ t.played_at ≤ en)) :
    get_tracks_by_time_window db u st en = [] := by
  unfold get_tracks_by_time_window
  have hf : db.filter (fun t =>
      decide (t.user_id = u ∧ st ≤ t.played_at ∧ t.played_at ≤ en)) = [] := by
    rw [List.filter_eq_nil_iff]
    intro t ht
    simpa using h t ht
  rw [hf, List.mergeSort_nil]

theorem diff_le_window {p pa w : Int} (h1 : p - w * 3600 ≤ pa)
    (h2 : pa ≤ p + w * 3600) :
    (calculate_time_difference_minutes p pa : Int) ≤ w * 60 := by
  unfold calculate_time_difference_minutes
  omega

theorem suggest_of_no_candidates (db : List ListeningHistory) (p : Photo) (u w m : Int)
    (h : get_tracks_by_time_window db u (p.creation_time - w * 3600)
      (p.creation_time + w * 3600) = []) :
    suggest_tracks_for_photo db p u w m = some [] := by
  unfold suggest_tracks_for_photo
  rw [h]
  simp [buildSuggestions, pyTakeSlice]

/-- C3: any diff beyond the window scores 0; every returned suggestion's diff
is within the window; when all of the user's plays are outside the window the
result is the empty list (no error); the empty candidate table also yields
the empty list. -/
theorem C3_outside_window_excluded (db : List ListeningHistory) (p : Photo)
    (u w m : Int) (_hw : 0 < w) :
    (∀ d : Nat, w * 60 < (d : Int) → calculate_confidence_score d (w * 60) = some 0) ∧
    (∀ out, suggest_tracks_for_photo db p u w m = some out →
      ∀ s ∈ out, (s.time_difference_minutes : Int) ≤ w * 60) ∧
    ((∀ t ∈ db, t.user_id = u →
        w * 60 < (calculate_time_difference_minutes p.creation_time t.played_at : Int)) →
      suggest_tracks_for_photo db p u w m = some []) ∧
    suggest_tracks_for_photo [] p u w m = some [] := by
  refine ⟨fun d hd => confidence_score_outside d _ hd, ?_, ?_, ?_⟩
  · intro out hout s hs
    obtain ⟨t, ht, _, hdiff, _, _⟩ := suggest_mem_build db p u w m out hout s hs
    obtain ⟨_, _, h1, h2⟩ := mem_get_tracks db u _ _ t ht
    rw [hdiff]
    exact diff_le_window h1 h2
  · intro hall
    apply suggest_of_no_candidates
    apply get_tracks_eq_nil
    intro t ht hcontra
    obtain ⟨hu2, h1, h2⟩ := hcontra
    have hle := diff_le_window h1 h2
    have := hall t ht hu2
    omega
  · apply suggest_of_no_candidates
    apply get_tracks_eq_nil
    intro t ht
    exact absurd ht (List.not_mem_nil t)

/-- Witness for `C3_outside_window_excluded`: a play at `T+200min` with
`windowHours = 3` scores 0 and the suggestion list for the photo at `T` is
empty. -/
theorem C3_witness :
    calculate_confidence_score 200 (3 * 60) = some 0 ∧
    suggest_tracks_for_photo [⟨1, 7, "k", "n", "a", "al", none, 12000, 0, "", ""⟩]
      ⟨1, 0⟩ 7 3 5 = some [] := by
  have h := C3_outside_window_excluded
    [⟨1, 7, "k", "n", "a", "al", none, 12000, 0, "", ""⟩] ⟨1, 0⟩ 7 3 5 (by norm_num)
  exact ⟨h.1 200 (by norm_num), h.2.2.1 (by decide)⟩

/-- C7: the returned list never exceeds `maxSuggestions` entries. -/
theorem C7_length_le (db : List ListeningHistory) (p : Photo) (u w m : Int)
    (hm : 1 ≤ m) (out : List Suggestion)
    (hout : suggest_tracks_for_photo db p u w m = some out) :
    (out.length : Int) ≤ m := by
  obtain ⟨pre, hpre, heq⟩ := suggest_some_inv db p u w m out hout
  subst heq
  rw [pyTakeSlice, if_pos (by omega)]
  have := List.length_take m.toNat (pre.mergeSort suggestLE)
  omega

/-- Witness for `C7_length_le` with an empty table and `maxSuggestions = 5`. -/
theorem C7_witness : ((([] : List Suggestion).length : Int)) ≤ 5 :=
  C7_length_le [] ⟨1, 0⟩ 0 3 5 (by norm_num) []
    (suggest_of_no_candidates [] ⟨1, 0⟩ 0 3 5
      (get_tracks_eq_nil [] 0 _ _ (fun t ht => absurd ht (List.not_mem_nil t))))

/-- C9: every returned suggestion has a strictly positive (hence `≥ 1`)
confidence score, and consequently satisfies `100*diff ≤ 99*window`: plays
with `(99/100)*window < diff ≤ window` are inside the window yet are always
filtered out. -/
theorem C9_positive_scores (db : List ListeningHistory) (p : Photo) (u w m : Int)
    (hw : 0 < w) (out : List Suggestion)
    (hout : suggest_tracks_for_photo db p u w m = some out) :
    (∀ s ∈ out, 1 ≤ s.confidence_score) ∧
    (∀ s ∈ out, 100 * (s.time_difference_minutes : Int) ≤ 99 * (w * 60)) := by
  have hW : (0 : Int) < w * 60 := by omega
  have hW0 : w * 60 ≠ 0 := ne_of_gt hW
  have hmem := suggest_mem_build db p u w m out hout
  constructor
  · intro s hs
    obtain ⟨t, _, _, _, _, hpos⟩ := hmem s hs
    omega
  · intro s hs
    obtain ⟨t, ht, _, _, hscore, hpos⟩ := hmem s hs
    rw [calculate_confidence_score_eq_scoreVal _ _ hW0, Option.some.injEq] at hscore
    by_cases hbig : (s.time_difference_minutes : Int) > w * 60
    · rw [scoreVal, if_pos hbig] at hscore
      omega
    · rw [scoreVal, if_neg hbig] at hscore
      set q := (100 * (w * 60 - (s.time_difference_minutes : Int))) / (w * 60) with hq
      have hq1 : 1 ≤ q := by
        by_contra hq1
        push_neg at hq1
        omega
      have := (Int.le_ediv_iff_mul_le hW).mp hq1
      omega

/-- Witness for `C9_positive_scores` on a play at `T-10min`, returned with
score `94 ≥ 1` and `100*10 ≤ 99*180`. -/
theorem C9_witness :
    (1 : Int) ≤ 94 ∧ 100 * ((10 : Nat) : Int) ≤ 99 * (3 * 60) := by
  have hg : get_tracks_by_time_window [⟨1, 7, "k", "n", "a", "al", none, 600, 0, "", ""⟩] 7
      ((Photo.mk 1 0).creation_time - 3 * 3600) ((Photo.mk 1 0).creation_time + 3 * 3600)
      = [⟨1, 7, "k", "n", "a", "al", none, 600, 0, "", ""⟩] := by
    unfold get_tracks_by_time_window
    have hf : List.filter (fun t : ListeningHistory =>
        decide (t.user_id = 7 ∧ (Photo.mk 1 0).creation_time - 3 * 3600 ≤ t.played_at ∧
          t.played_at ≤ (Photo.mk 1 0).creation_time + 3 * 3600))
        [⟨1, 7, "k", "n", "a", "al", none, 600, 0, "", ""⟩]
        = [⟨1, 7, "k", "n", "a", "al", none, 600, 0, "", ""⟩] := by decide
    rw [hf, List.mergeSort_singleton]
  have hpre : buildSuggestions (Photo.mk 1 0).creation_time (3 * 60)
      (get_tracks_by_time_window [⟨1, 7, "k", "n", "a", "al", none, 600, 0, "", ""⟩] 7
        ((Photo.mk 1 0).creation_time - 3 * 3600) ((Photo.mk 1 0).creation_time + 3 * 3600))
      = some [⟨1, "n", "a", "al", none, 600, 94, 10⟩] := by
    rw [hg]; decide
  have hout : suggest_tracks_for_photo [⟨1, 7, "k", "n", "a", "al", none, 600, 0, "", ""⟩]
      ⟨1, 0⟩ 7 3 5 = some [⟨1, "n", "a", "al", none, 600, 94, 10⟩] := by
    rw [suggest_eq _ _ _ _ _ hpre, List.mergeSort_singleton]
    decide
  have h := C9_positive_scores [⟨1, 7, "k", "n", "a", "al", none, 600, 0, "", ""⟩]
    ⟨1, 0⟩ 7 3 5 (by norm_num) [⟨1, "n", "a", "al", none, 600, 94, 10⟩] hout
  exact ⟨h.1 ⟨1, "n", "a", "al", none, 600, 94, 10⟩ (by decide),
         h.2 ⟨1, "n", "a", "al", none, 600, 94, 10⟩ (by decide)⟩

theorem suggest_none_of_build_none (db : List ListeningHistory) (p : Photo) (u w m : Int)
    (h : buildSuggestions p.creation_time (w * 60)
      (get_tracks_by_time_window db u (p.creation_time - w * 3600)
        (p.creation_time + w * 3600)) = none) :
    suggest_tracks_for_photo db p u w m = none := by
  unfold suggest_tracks_for_photo
  rw [h]

theorem buildSuggestions_none_of_head (pt W : Int) (ts : List ListeningHistory)
    (hne : ts ≠ [])
    (h : ∀ t ∈ ts, calculate_confidence_score
      (calculate_time_difference_minutes pt t.played_at) W = none) :
    buildSuggestions pt W ts = none := by
  cases ts with
  | nil => exact absurd rfl hne
  | cons t ts =>
    simp only [buildSuggestions]
    rw [h t (List.mem_cons_self t ts)]

/-- C2 counterexample: `windowHours = -1 ≤ 0` is not rejected; the operation
returns the (empty) result instead of reporting an invalid-input error. -/
theorem C2_counterexample :
    (-1 : Int) ≤ 0 ∧ suggest_tracks_for_photo [] ⟨1, 0⟩ 0 (-1) 5 = some [] :=
  ⟨by norm_num, suggest_of_no_candidates [] ⟨1, 0⟩ 0 (-1) 5
    (get_tracks_eq_nil [] 0 _ _ (fun t ht => absurd ht (List.not_mem_nil t)))⟩

/-- C2 (amended): no validation of `windowHours ≤ 0` is performed.  The call
fails (with `ZeroDivisionError`, modelled `none`) exactly when
`windowHours = 0` and some play of the user sits exactly at the photo's
timestamp; otherwise it returns the empty list. -/
theorem C2_no_validation (db : List ListeningHistory) (p : Photo) (u w m : Int)
    (hw : w ≤ 0) :
    (suggest_tracks_for_photo db p u w m = none ↔
      (w = 0 ∧ ∃ t ∈ db, t.user_id = u ∧ t.played_at = p.creation_time)) ∧
    (∀ out, suggest_tracks_for_photo db p u w m = some out → out = []) := by
  rcases lt_or_eq_of_le hw with hlt | heq
  · have hnil : get_tracks_by_time_window db u (p.creation_time - w * 3600)
        (p.creation_time + w * 3600) = [] := by
      apply get_tracks_eq_nil
      intro t ht hcon
      obtain ⟨_, h1, h2⟩ := hcon
      omega
    have hsome := suggest_of_no_candidates db p u w m hnil
    constructor
    · refine ⟨fun h => ?_, fun hc => ?_⟩
      · rw [hsome] at h
        exact Option.noConfusion h
      · obtain ⟨h0, _⟩ := hc
        omega
    · intro out hout
      rw [hsome] at hout
      exact (Option.some.inj hout).symm
  · subst heq
    by_cases hex : ∃ t ∈ db, t.user_id = u ∧ t.played_at = p.creation_time
    · obtain ⟨t0, ht0, hu0, hp0⟩ := hex
      have hmem : t0 ∈ get_tracks_by_time_window db u (p.creation_time - 0 * 3600)
          (p.creation_time + 0 * 3600) := by
        unfold get_tracks_by_time_window
        rw [List.mem_mergeSort, List.mem_filter]
        refine ⟨ht0, ?_⟩
        simp only [decide_eq_true_eq]
        exact ⟨hu0, by omega, by omega⟩
      have hnone : buildSuggestions p.creation_time (0 * 60)
          (get_tracks_by_time_window db u (p.creation_time - 0 * 3600)
            (p.creation_time + 0 * 3600)) = none := by
        apply buildSuggestions_none_of_head
        · exact List.ne_nil_of_mem hmem
        · intro t ht
          obtain ⟨_, _, h1, h2⟩ := mem_get_tracks db u _ _ t ht
          have hpa : t.played_at = p.creation_time := by omega
          have hd : calculate_time_difference_minutes p.creation_time t.played_at = 0 := by
            unfold calculate_time_difference_minutes
            omega
          rw [hd]
          unfold calculate_confidence_score
          norm_num
      have hsn := suggest_none_of_build_none db p u 0 m hnone
      constructor
      · exact ⟨fun _ => ⟨rfl, t0, ht0, hu0, hp0⟩, fun _ => hsn⟩
      · intro out hout
        rw [hsn] at hout
        exact Option.noConfusion hout
    · have hnil : get_tracks_by_time_window db u (p.creation_time - 0 * 3600)
          (p.creation_time + 0 * 3600) = [] := by
        apply get_tracks_eq_nil
        intro t ht hcon
        obtain ⟨h1, h2, h3⟩ := hcon
        exact hex ⟨t, ht, h1, by omega⟩
      have hsome := suggest_of_no_candidates db p u 0 m hnil
      constructor
      · refine ⟨fun h => ?_, fun hc => ?_⟩
        · rw [hsome] at h
          exact Option.noConfusion h
        · exact absurd hc.2 hex
      · intro out hout
        rw [hsome] at hout
        exact (Option.some.inj hout).symm

/-- Witness for `C2_no_validation` at `windowHours = -1` with an empty table:
the call does not fail, matching the right-hand side being false. -/
theorem C2_witness :
    suggest_tracks_for_photo [] ⟨1, 0⟩ 0 (-1) 5 = none ↔
      ((-1 : Int) = 0 ∧ ∃ t ∈ ([] : List ListeningHistory),
        t.user_id = 0 ∧ t.played_at = (Photo.mk 1 0).creation_time) :=
  (C2_no_validation [] ⟨1, 0⟩ 0 (-1) 5 (by norm_num)).1

theorem suggestLE_trans : ∀ a b c : Suggestion, suggestLE a b → suggestLE b c → suggestLE a c := by
  intro a b c hab hbc
  have h1 := of_decide_eq_true hab
  have h2 := of_decide_eq_true hbc
  exact decide_eq_true (le_trans h2 h1)

theorem suggestLE_total : ∀ a b : Suggestion, suggestLE a b || suggestLE b a := by
  intro a b
  rcases le_total a.confidence_score b.confidence_score with h | h
  · have : suggestLE b a = true := decide_eq_true h
    rw [this, Bool.or_true]
  · have : suggestLE a b = true := decide_eq_true h
    rw [this, Bool.true_or]

/-- C6: the returned list is sorted in descending order of confidence score,
and within each equal-score class the order is the candidate (pre-sort)
order: the sort is stable, with no other tie-break. -/
theorem C6_sorted_and_stable (db : List ListeningHistory) (p : Photo) (u w m : Int)
    (out pre : List Suggestion)
    (hpre : buildSuggestions p.creation_time (w * 60)
      (get_tracks_by_time_window db u (p.creation_time - w * 3600)
        (p.creation_time + w * 3600)) = some pre)
    (hout : suggest_tracks_for_photo db p u w m = some out) :
    out.Pairwise (fun a b => b.confidence_score ≤ a.confidence_score) ∧
    ∀ c : Int, List.Sublist
      (out.filter (fun s => decide (s.confidence_score = c)))
      (pre.filter (fun s => decide (s.confidence_score = c))) := by
  have heq := suggest_eq db p u w m hpre
  rw [hout] at heq
  have hout2 : out = pyTakeSlice (pre.mergeSort suggestLE) m := Option.some.inj heq
  subst hout2
  have hsub : List.Sublist (pyTakeSlice (pre.mergeSort suggestLE) m)
      (pre.mergeSort suggestLE) := pyTakeSlice_sublist _ _
  constructor
  · have hsorted := List.sorted_mergeSort suggestLE_trans suggestLE_total pre
    have hsorted2 : (pre.mergeSort suggestLE).Pairwise
        (fun a b => b.confidence_score ≤ a.confidence_score) :=
      hsorted.imp (fun h => of_decide_eq_true h)
    exact hsorted2.sublist hsub
  · intro c
    have hperm : (pre.mergeSort suggestLE).Perm pre := List.mergeSort_perm pre suggestLE
    have hpw : (pre.filter (fun s => decide (s.confidence_score = c))).Pairwise
        (fun a b => suggestLE a b = true) := by
      apply List.pairwise_of_forall_mem_list
      intro a ha b hb
      have ha2 := of_decide_eq_true (List.mem_filter.mp ha).2
      have hb2 := of_decide_eq_true (List.mem_filter.mp hb).2
      exact decide_eq_true (by rw [ha2, hb2])
    have hsubf : List.Sublist (pre.filter (fun s => decide (s.confidence_score = c)))
        (pre.mergeSort suggestLE) :=
      List.sublist_mergeSort suggestLE_trans suggestLE_total hpw (List.filter_sublist pre)
    have h1 := hsubf.filter (fun s => decide (s.confidence_score = c))
    have h2 : (pre.filter (fun s => decide (s.confidence_score = c))).filter
        (fun s => decide (s.confidence_score = c))
        = pre.filter (fun s => decide (s.confidence_score = c)) :=
      List.filter_eq_self.mpr (fun a ha => (List.mem_filter.mp ha).2)
    rw [h2] at h1
    have h3 := hperm.filter (fun s => decide (s.confidence_score = c))
    have h4 : (pre.mergeSort suggestLE).filter (fun s => decide (s.confidence_score = c))
        = pre.filter (fun s => decide (s.confidence_score = c)) :=
      (h1.eq_of_length h3.length_eq.symm).symm
    have h5 := hsub.filter (fun s => decide (s.confidence_score = c))
    rw [h4] at h5
    exact h5

/-- Witness for `C6_sorted_and_stable` on a single play at `T-10min`
(score class 94). -/
theorem C6_witness :
    ([⟨1, "n", "a", "al", none, 600, 94, 10⟩] : List Suggestion).Pairwise
      (fun a b => b.confidence_score ≤ a.confidence_score) ∧
    List.Sublist
      (([⟨1, "n", "a", "al", none, 600, 94, 10⟩] : List Suggestion).filter
        (fun s => decide (s.confidence_score = 94)))
      (([⟨1, "n", "a", "al", none, 600, 94, 10⟩] : List Suggestion).filter
        (fun s => decide (s.confidence_score = 94))) := by
  have hg : get_tracks_by_time_window [⟨1, 7, "k", "n", "a", "al", none, 600, 0, "", ""⟩] 7
      ((Photo.mk 1 0).creation_time - 3 * 3600) ((Photo.mk 1 0).creation_time + 3 * 3600)
      = [⟨1, 7, "k", "n", "a", "al", none, 600, 0, "", ""⟩] := by
    unfold get_tracks_by_time_window
    have hf : List.filter (fun t : ListeningHistory =>
        decide (t.user_id = 7 ∧ (Photo.mk 1 0).creation_time - 3 * 3600 ≤ t.played_at ∧
          t.played_at ≤ (Photo.mk 1 0).creation_time + 3 * 3600))
        [⟨1, 7, "k", "n", "a", "al", none, 600, 0, "", ""⟩]
        = [⟨1, 7, "k", "n", "a", "al", none, 600, 0, "", ""⟩] := by decide
    rw [hf, List.mergeSort_singleton]
  have hpre : buildSuggestions (Photo.mk 1 0).creation_time (3 * 60)
      (get_tracks_by_time_window [⟨1, 7, "k", "n", "a", "al", none, 600, 0, "", ""⟩] 7
        ((Photo.mk 1 0).creation_time - 3 * 3600) ((Photo.mk 1 0).creation_time + 3 * 3600))
      = some [⟨1, "n", "a", "al", none, 600, 94, 10⟩] := by
    rw [hg]; decide
  have hout : suggest_tracks_for_photo [⟨1, 7, "k", "n", "a", "al", none, 600, 0, "", ""⟩]
      ⟨1, 0⟩ 7 3 5 = some [⟨1, "n", "a", "al", none, 600, 94, 10⟩] := by
    rw [suggest_eq _ _ _ _ _ hpre, List.mergeSort_singleton]
    decide
  have h := C6_sorted_and_stable [⟨1, 7, "k", "n", "a", "al", none, 600, 0, "", ""⟩]
    ⟨1, 0⟩ 7 3 5 [⟨1, "n", "a", "al", none, 600, 94, 10⟩]
    [⟨1, "n", "a", "al", none, 600, 94, 10⟩] hpre hout
  exact ⟨h.1, h.2 94⟩

theorem stepEvent_eq_self_iff (u : Int) (db : List ListeningHistory) (e : LastfmEvent)
    (ts : Int) (hn : e.nowplaying = false) (hu : e.uts = some ts) :
    stepEvent u db e = (db, 0) ↔
      ∃ h ∈ db, h.user_id = u ∧ h.track_id = trackKey e ts ∧ h.played_at = ts := by
  have hred : stepEvent u db e =
      (if db.any (fun h =>
          decide (h.user_id = u ∧ h.track_id = trackKey e ts ∧ h.played_at = ts)) then (db, 0)
       else (db ++ [⟨0, u, trackKey e ts, e.track_name, e.artist_name, e.album_name,
         e.album_image_url, ts, (match e.duration with | some d => d * 1000 | none => 0),
         e.url, e.mbid⟩], 1)) := by
    simp [stepEvent, hn, hu]
  by_cases hany : db.any (fun h =>
      decide (h.user_id = u ∧ h.track_id = trackKey e ts ∧ h.played_at = ts)) = true
  · rw [hred, if_pos hany]
    constructor
    · intro _
      obtain ⟨h, hmem, hdec⟩ := List.any_eq_true.mp hany
      exact ⟨h, hmem, of_decide_eq_true hdec⟩
    · intro _
      rfl
  · rw [hred, if_neg hany]
    constructor
    · intro hcd
      have h2 := congrArg Prod.snd hcd
      simp at h2
    · intro hex
      obtain ⟨h, hmem, hprops⟩ := hex
      exact absurd (List.any_eq_true.mpr ⟨h, hmem, decide_eq_true hprops⟩) hany

theorem stepEvent_subset (u : Int) (db : List ListeningHistory) (e : LastfmEvent) :
    ∀ h ∈ db, h ∈ (stepEvent u db e).1 := by
  intro h hmem
  rw [stepEvent]
  split
  · exact hmem
  · split
    · exact hmem
    · split
      · exact hmem
      · exact List.mem_append_left _ hmem

theorem sync_subset (u : Int) : ∀ (evs : List LastfmEvent) (db : List ListeningHistory),
    ∀ h ∈ db, h ∈ (sync_listening_history u db evs).1 := by
  intro evs
  induction evs with
  | nil => intro db h hmem; exact hmem
  | cons e es ih =>
    intro db h hmem
    exact ih (stepEvent u db e).1 h (stepEvent_subset u db e h hmem)

theorem sync_covers (u : Int) : ∀ (evs : List LastfmEvent) (db : List ListeningHistory)
    (e : LastfmEvent) (ts : Int), e ∈ evs → e.nowplaying = false → e.uts = some ts →
    ∃ h ∈ (sync_listening_history u db evs).1,
      h.user_id = u ∧ h.track_id = trackKey e ts ∧ h.played_at = ts := by
  intro evs
  induction evs with
  | nil =>
    intro db e ts hmem
    exact absurd hmem (List.not_mem_nil e)
  | cons e0 es ih =>
    intro db e ts hmem hn hu
    rcases List.mem_cons.mp hmem with heq | hmem2
    · subst heq
      have hstep : ∃ h ∈ (stepEvent u db e).1,
          h.user_id = u ∧ h.track_id = trackKey e ts ∧ h.played_at = ts := by
        by_cases hany : db.any (fun hh =>
            decide (hh.user_id = u ∧ hh.track_id = trackKey e ts ∧ hh.played_at = ts)) = true
        · obtain ⟨h, hmem3, hdec⟩ := List.any_eq_true.mp hany
          exact ⟨h, stepEvent_subset u db e h hmem3, of_decide_eq_true hdec⟩
        · have hnotex : ¬∃ x ∈ db,
              x.user_id = u ∧ x.track_id = trackKey e ts ∧ x.played_at = ts := by
            intro hex
            obtain ⟨x, hx, hp⟩ := hex
            exact hany (List.any_eq_true.mpr ⟨x, hx, decide_eq_true hp⟩)
          have hred : (stepEvent u db e).1 = db ++ [⟨0, u, trackKey e ts, e.track_name,
              e.artist_name, e.album_name, e.album_image_url, ts,
              (match e.duration with | some d => d * 1000 | none => 0), e.url, e.mbid⟩] := by
            simp [stepEvent, hn, hu, hnotex]
          rw [hred]
          exact ⟨⟨0, u, trackKey e ts, e.track_name, e.artist_name, e.album_name,
            e.album_image_url, ts,
            (match e.duration with | some d => d * 1000 | none => 0), e.url, e.mbid⟩,
            List.mem_append_right _ (List.mem_singleton.mpr rfl), rfl, rfl, rfl⟩
      obtain ⟨h, hmem3, hprops⟩ := hstep
      exact ⟨h, sync_subset u es (stepEvent u db e).1 h hmem3, hprops⟩
    · exact ih (stepEvent u db e0).1 e ts hmem2 hn hu

theorem sync_fixed (u : Int) : ∀ (evs : List LastfmEvent) (db : List ListeningHistory),
    (∀ e ∈ evs, stepEvent u db e = (db, 0)) →
    sync_listening_history u db evs = (db, 0) := by
  intro evs
  induction evs with
  | nil =>
    intro db _
    rfl
  | cons e es ih =>
    intro db hall
    have h1 := hall e (List.mem_cons_self e es)
    have h2 := ih db (fun e2 he2 => hall e2 (List.mem_cons_of_mem e he2))
    show ((sync_listening_history u (stepEvent u db e).1 es).1,
      (stepEvent u db e).2 + (sync_listening_history u (stepEvent u db e).1 es).2) = (db, 0)
    rw [h1]
    show ((sync_listening_history u db es).1, 0 + (sync_listening_history u db es).2) = (db, 0)
    rw [h2]
    rfl

/-- C8: an incoming dated event is skipped by `sync_listening_history`
exactly when a row with the same `(user, synthetic track key, played_at)`
already exists (key = `trackName|artistName|unixTimestamp`); consequently a
second run of the ingestion over the same events adds nothing and counts
nothing. -/
theorem C8_dedup_and_idempotent (u : Int) (db : List ListeningHistory)
    (e : LastfmEvent) (ts : Int) (evs : List LastfmEvent)
    (hn : e.nowplaying = false) (hu : e.uts = some ts) :
    (stepEvent u db e = (db, 0) ↔
      ∃ h ∈ db, h.user_id = u ∧ h.track_id = trackKey e ts ∧ h.played_at = ts) ∧
    sync_listening_history u (sync_listening_history u db evs).1 evs
      = ((sync_listening_history u db evs).1, 0) := by
  refine ⟨stepEvent_eq_self_iff u db e ts hn hu, ?_⟩
  apply sync_fixed
  intro e2 he2
  by_cases h1 : e2.nowplaying = true
  · simp [stepEvent, h1]
  · have hn2 : e2.nowplaying = false := by
      revert h1
      cases e2.nowplaying <;> simp
    cases h2 : e2.uts with
    | none => simp [stepEvent, hn2, h2]
    | some ts2 =>
      obtain ⟨h, hmem, hprops⟩ := sync_covers u evs db e2 ts2 he2 hn2 h2
      exact (stepEvent_eq_self_iff u _ e2 ts2 hn2 h2).mpr ⟨h, hmem, hprops⟩

/-- Witness for `C8_dedup_and_idempotent` on one concrete event. -/
theorem C8_witness :
    (stepEvent 1 [] ⟨false, some 7, "n", "a", "al", none, "", none, ""⟩ = ([], 0) ↔
      ∃ h ∈ ([] : List ListeningHistory), h.user_id = 1 ∧
        h.track_id = trackKey ⟨false, some 7, "n", "a", "al", none, "", none, ""⟩ 7 ∧
        h.played_at = 7) ∧
    sync_listening_history 1
        (sync_listening_history 1 [] [⟨false, some 7, "n", "a", "al", none, "", none, ""⟩]).1
        [⟨false, some 7, "n", "a", "al", none, "", none, ""⟩]
      = ((sync_listening_history 1 []
          [⟨false, some 7, "n", "a", "al", none, "", none, ""⟩]).1, 0) :=
  C8_dedup_and_idempotent 1 [] ⟨false, some 7, "n", "a", "al", none, "", none, ""⟩ 7
    [⟨false, some 7, "n", "a", "al", none, "", none, ""⟩] rfl rfl

theorem suggest_length_le_nat (db : List ListeningHistory) (p : Photo) (u w m : Int)
    (hm : 0 ≤ m) (out : List Suggestion)
    (hout : suggest_tracks_for_photo db p u w m = some out) : out.length ≤ m.toNat := by
  obtain ⟨pre, hpre, heq⟩ := suggest_some_inv db p u w m out hout
  subst heq
  rw [pyTakeSlice, if_pos hm]
  have := List.length_take m.toNat (pre.mergeSort suggestLE)
  omega

theorem dictAssign_append {β : Type} (acc : List (Int × β)) (k : Int) (v : β)
    (hk : ∀ e ∈ acc, e.1 ≠ k) : dictAssign acc k v = acc ++ [(k, v)] := by
  have hfalse : acc.any (fun e => decide (e.1 = k)) = false := by
    rw [List.any_eq_false]
    intro e he
    simpa using hk e he
  simp [dictAssign, hfalse]

theorem autoSuggestLoop_spec (db : List ListeningHistory) (u w : Int) :
    ∀ (photos : List Photo) (acc res : List (Int × List Suggestion)),
      (∀ e ∈ acc, ∀ ph ∈ photos, e.1 ≠ ph.id) →
      (photos.map Photo.id).Nodup →
      autoSuggestLoop db u w photos acc = some res →
      ∃ tail, res = acc ++ tail ∧
        List.Forall₂ (fun (ph : Photo) (en : Int × List Suggestion) =>
          en.1 = ph.id ∧ suggest_tracks_for_photo db ph u w 5 = some en.2 ∧
          en.2.length ≤ 5) photos tail := by
  intro photos
  induction photos with
  | nil =>
    intro acc res hdis hnd hres
    simp only [autoSuggestLoop, Option.some.injEq] at hres
    exact ⟨[], by simp [hres], List.Forall₂.nil⟩
  | cons ph rest ih =>
    intro acc res hdis hnd hres
    simp only [autoSuggestLoop] at hres
    cases hs : suggest_tracks_for_photo db ph u w 5 with
    | none => rw [hs] at hres; simp at hres
    | some sgs =>
      rw [hs] at hres
      dsimp only at hres
      have hda : dictAssign acc ph.id sgs = acc ++ [(ph.id, sgs)] :=
        dictAssign_append acc ph.id sgs
          (fun e he => hdis e he ph (List.mem_cons_self ph rest))
      rw [hda] at hres
      have hnd2 : (rest.map Photo.id).Nodup := by
        rw [List.map_cons, List.nodup_cons] at hnd
        exact hnd.2
      have hnotin : ph.id ∉ rest.map Photo.id := by
        rw [List.map_cons, List.nodup_cons] at hnd
        exact hnd.1
      have hdis2 : ∀ e ∈ acc ++ [(ph.id, sgs)], ∀ ph2 ∈ rest, e.1 ≠ ph2.id := by
        intro e he ph2 hph2
        rcases List.mem_append.mp he with he2 | he2
        · exact hdis e he2 ph2 (List.mem_cons_of_mem ph hph2)
        · have heq : e = (ph.id, sgs) := List.mem_singleton.mp he2
          subst heq
          intro hcontra
          apply hnotin
          rw [show ph.id = ph2.id from hcontra]
          exact List.mem_map_of_mem Photo.id hph2
      obtain ⟨tail, htail, hfa⟩ := ih (acc ++ [(ph.id, sgs)]) res hdis2 hnd2 hres
      refine ⟨(ph.id, sgs) :: tail, ?_, ?_⟩
      · rw [htail, List.append_assoc, List.singleton_append]
      · have hlen : sgs.length ≤ 5 := by
          have := suggest_length_le_nat db ph u w 5 (by norm_num) sgs hs
          simpa using this
        exact List.Forall₂.cons ⟨rfl, hs, hlen⟩ hfa

/-- C10: the batch `auto_suggest_mappings_for_memory` yields exactly one
entry per input photo (photo ids being distinct), in order, keyed by the
photo's id, whose value is that photo's suggestion list computed with the
default `max_suggestions = 5` — hence each value has at most 5 entries. -/
theorem C10_one_entry_per_photo (db : List ListeningHistory) (photos : List Photo)
    (u w : Int) (hnd : (photos.map Photo.id).Nodup)
    (res : List (Int × List Suggestion))
    (hres : auto_suggest_mappings_for_memory db photos u w = some res) :
    List.Forall₂ (fun (ph : Photo) (en : Int × List Suggestion) =>
      en.1 = ph.id ∧ suggest_tracks_for_photo db ph u w 5 = some en.2 ∧
      en.2.length ≤ 5) photos res := by
  obtain ⟨tail, htail, hfa⟩ := autoSuggestLoop_spec db u w photos [] res
    (fun e he => absurd he (List.not_mem_nil e)) hnd hres
  rw [List.nil_append] at htail
  rw [htail]
  exact hfa

/-- Witness for `C10_one_entry_per_photo` on one photo over an empty table. -/
theorem C10_witness :
    List.Forall₂ (fun (ph : Photo) (en : Int × List Suggestion) =>
      en.1 = ph.id ∧ suggest_tracks_for_photo [] ph 0 3 5 = some en.2 ∧
      en.2.length ≤ 5) [⟨1, 0⟩] [(1, [])] := by
  have hsugg : suggest_tracks_for_photo [] ⟨1, 0⟩ 0 3 5 = some [] :=
    suggest_of_no_candidates [] ⟨1, 0⟩ 0 3 5
      (get_tracks_eq_nil [] 0 _ _ (fun t ht => absurd ht (List.not_mem_nil t)))
  have hres : auto_suggest_mappings_for_memory [] [⟨1, 0⟩] 0 3 = some [(1, [])] := by
    unfold auto_suggest_mappings_for_memory autoSuggestLoop
    rw [hsugg]
    rfl
  exact C10_one_entry_per_photo [] [⟨1, 0⟩] 0 3 (by decide) [(1, [])] hres
